import Mathlib

/-!
# Verification of the electron-sync-store synchronization core

A shallow embedding of the repository's TypeScript source:

* `src/shared.ts` — `clone`, `isPlainObject`, `deepMerge`;
* `src/main.ts` — `StoreHost` (hydration in `init`, `set`/`applyState`
  with validation, the JSON-serialization short-circuit, persistence
  middleware calls and broadcasting);
* `src/preload.ts` — `StoreClient.performOptimisticUpdate` / optimistic
  `set` (apply-then-rollback with the rollback-only-if-unchanged check).

JavaScript values are modelled by the inductive type `JVal` (mappings as
insertion-ordered association lists, mirroring JS object key order), and
the effectful host/client operations are modelled as pure functions that
also return their observable effects (persistence calls, broadcasts,
listener notifications) explicitly.
-/

namespace SyncStore

/-- A structured JavaScript value as handled by the store: `undefined`
(the explicit absent/deletion marker), `null`, booleans, numbers
(modelled as integers), strings, `Date` and `RegExp` scalars, arrays,
and plain objects as insertion-ordered association lists. -/
inductive JVal where
  | undef : JVal
  | null : JVal
  | bool : Bool → JVal
  | num : Int → JVal
  | str : String → JVal
  | date : Int → JVal
  | regexp : String → JVal
  | arr : List JVal → JVal
  | obj : List (String × JVal) → JVal
deriving Repr

/-- `shared.ts` `clone`: value-level model of `structuredClone` (with the
JSON fallback). At the level of values a deep copy is the value itself;
the aliasing that `clone` prevents is not observable in a value model. -/
def clone (v : JVal) : JVal := v

/-- `shared.ts` `isPlainObject`: not null, of object type, not an array,
not a `Date`, not a `RegExp`. In the value model exactly the `obj`
constructor qualifies (`undefined` and primitives are not of object
type). -/
def isPlainObject : JVal → Bool
  | .obj _ => true
  | _ => false

/-- JS property read `o[k]`: the value of the first entry with key `k`,
or `undefined` when the key is absent. -/
def objGet : List (String × JVal) → String → JVal
  | [], _ => .undef
  | (k', v) :: rest, k => if k' = k then v else objGet rest k

/-- JS property write `o[k] = v`: updates the property in place when
present (keeping its position in insertion order), else appends it. -/
def objSet : List (String × JVal) → String → JVal → List (String × JVal)
  | [], k, v => [(k, v)]
  | (k', v') :: rest, k, v =>
    if k' = k then (k, v) :: rest else (k', v') :: objSet rest k v

/-- JS `delete o[k]`: removes the entry for key `k`. -/
def objDelete : List (String × JVal) → String → List (String × JVal)
  | [], _ => []
  | (k', v) :: rest, k =>
    if k' = k then objDelete rest k else (k', v) :: objDelete rest k

/-- JS `k in o` / `Object.keys(o).includes(k)`. -/
def objHasKey : List (String × JVal) → String → Bool
  | [], _ => false
  | (k', _) :: rest, k => k' = k || objHasKey rest k

/-- The fields of an object value (`[]` for non-objects). -/
def objFields : JVal → List (String × JVal)
  | .obj fs => fs
  | _ => []

/-- The prototype-pollution guard of `deepMerge` (`shared.ts` lines
56-59): keys that are silently skipped. -/
def isReservedKey (k : String) : Bool :=
  k = "__proto__" || k = "constructor" || k = "prototype"

/-- The `sourceValue === undefined` test of `deepMerge` (`shared.ts`
line 64). -/
def isUndef : JVal → Bool
  | .undef => true
  | _ => false

mutual
/-- `shared.ts` `deepMerge`: `undefined` source signals deletion; if
either side is not a plain object the (cloned) source replaces the
target wholesale; otherwise the source's keys are folded into a copy of
the target. -/
def deepMerge : JVal → JVal → JVal
  | _, .undef => .undef
  | .obj tfs, .obj sfs => .obj (mergeInto tfs sfs)
  | _, source => clone source

/-- The `for (const key of Object.keys(source))` loop of `deepMerge`,
acting on `output = \x7b...target\x7d`: reserved keys are skipped, an
`undefined` source value deletes the key, anything else is merged
recursively against `output[key]`. -/
def mergeInto (output : List (String × JVal)) : List (String × JVal) → List (String × JVal)
  | [] => output
  | (k, sv) :: rest =>
    if isReservedKey k then mergeInto output rest
    else if isUndef sv then mergeInto (objDelete output k) rest
    else mergeInto (objSet output k (deepMerge (objGet output k) sv)) rest
end

mutual
/-- Model of `JSON.stringify` as used by `main.ts` (`applyState` line 85)
and `preload.ts` (`performOptimisticUpdate` line 198) for change
detection: `undefined` serializes to no string at all (`none`, so that
`stringify(a) === stringify(b)` with both `undefined` compares equal),
`undefined` entries of objects are dropped, `undefined` elements of
arrays become `null`, object keys appear in insertion order, a `Date`
serializes through its ISO-like `toJSON` string (modelled injectively),
and a `RegExp` serializes as an empty object. -/
def jsonStr : JVal → Option String
  | .undef => none
  | .null => some "null"
  | .bool b => some (cond b "true" "false")
  | .num n => some (toString n)
  | .str s => some ("\"" ++ s ++ "\"")
  | .date t => some ("\"@date:" ++ toString t ++ "\"")
  | .regexp _ => some "\x7b\x7d"
  | .arr xs => some ("[" ++ String.intercalate "," (jsonArrParts xs) ++ "]")
  | .obj fs => some ("\x7b" ++ String.intercalate "," (jsonObjParts fs) ++ "\x7d")

/-- Array elements under `JSON.stringify`: an unserializable element
(`undefined`) is rendered as `null`. -/
def jsonArrParts : List JVal → List String
  | [] => []
  | x :: rest => ((jsonStr x).getD "null") :: jsonArrParts rest

/-- Object entries under `JSON.stringify`: entries whose value does not
serialize (`undefined`) are dropped. -/
def jsonObjParts : List (String × JVal) → List String
  | [] => []
  | (k, v) :: rest =>
    match jsonStr v with
    | none => jsonObjParts rest
    | some j => ("\"" ++ k ++ "\":" ++ j) :: jsonObjParts rest
end

/-- JS truthiness, as used by `if (loaded)` in `StoreHost.init`
(`main.ts` line 32): `undefined`, `null`, `false`, `0` and the empty
string are falsy, every other modelled value is truthy. -/
def truthy : JVal → Bool
  | .undef => false
  | .null => false
  | .bool b => b
  | .num n => n != 0
  | .str s => s != ""
  | _ => true

/-- The store configuration relevant to the verified claims: the
optional `validate` hook of `StoreOptions` (`types.ts`), which either
returns the sanitized state or throws (modelled as `Except`). -/
structure HostConfig where
  validate : Option (JVal → Except String JVal)

/-- The observable outcome of one host write: the state after the call,
the arguments of every `onPersist` middleware invocation made by the
write, the payloads broadcast to renderers by the write, and the error
re-thrown to the caller (if any). -/
structure WriteOutcome where
  state : JVal
  persistCalls : List JVal
  broadcasts : List JVal
  thrown : Option String
deriving Repr

/-- The validation step of `StoreHost.applyState` (`main.ts` lines
75-82): apply the configured validator to the candidate, or pass the
candidate through when none is configured. -/
def runValidate (cfg : HostConfig) (candidate : JVal) : Except String JVal :=
  match cfg.validate with
  | some v => v candidate
  | none => Except.ok candidate

/-- `StoreHost.applyState` (`main.ts` lines 74-97) for a host with
`mwCount` persistence middleware: validate the candidate (a thrown
validation error aborts with the state unchanged and nothing persisted
or broadcast), skip persistence and broadcast when
`JSON.stringify(state) === JSON.stringify(candidate)`, otherwise commit
the candidate, call each middleware's `onPersist` with the new state and
broadcast it once. -/
def applyState (cfg : HostConfig) (mwCount : Nat) (state newState : JVal) : WriteOutcome :=
  match runValidate cfg newState with
  | .error e => ⟨state, [], [], some e⟩
  | .ok n =>
    if jsonStr state = jsonStr n then ⟨state, [], [], none⟩
    else ⟨n, List.replicate mwCount n, [n], none⟩

/-- `StoreHost.set` (`main.ts` lines 54-59): merge the partial update
into the current state with `deepMerge` and apply the result. -/
def hostSet (cfg : HostConfig) (mwCount : Nat) (state update : JVal) : WriteOutcome :=
  applyState cfg mwCount state (deepMerge state update)

/-- The hydration loop of `StoreHost.init` (`main.ts` lines 29-34): each
middleware's `onHydrate` result (a value, or a thrown error) is
processed in registration order; a truthy result is deep-merged into the
running state, a falsy one is skipped, and a thrown error escapes the
loop (to the surrounding `catch`). -/
def hydrateLoop (state : JVal) : List (Except String JVal) → Except String JVal
  | [] => .ok state
  | .error e :: _ => .error e
  | .ok v :: rest => hydrateLoop (if truthy v then deepMerge state v else state) rest

/-- `StoreHost.init` (`main.ts` lines 27-42): state starts as a clone of
the defaults, the hydration loop folds the middleware results in, the
configured validator (if any) then runs on the hydrated state, and any
error thrown anywhere in the `try` block is caught, making the state
fall back to a clone of the defaults. `init` never re-throws, so the
function is total: the store always reaches readiness with the returned
state. -/
def initState (cfg : HostConfig) (defaults : JVal) (hyd : List (Except String JVal)) : JVal :=
  match hydrateLoop (clone defaults) hyd with
  | .error _ => clone defaults
  | .ok s =>
    match runValidate cfg s with
    | .error _ => clone defaults
    | .ok s' => s'

/-- An observable action of the renderer client during one `set` call:
a listener notification with the new cached state, or the IPC request
sent to the host. -/
inductive CEvent where
  | notify (v : JVal)
  | send (u : JVal)
deriving Repr

/-- The outcome of one optimistic client `set`: the cached state after
the call, the ordered events the call itself produced, and whether the
error was re-raised to the caller. -/
structure ClientOutcome where
  state : JVal
  events : List CEvent
  raised : Bool
deriving Repr

/-- Optimistic `StoreClient.set` via `performOptimisticUpdate`
(`preload.ts` lines 133-145 and 183-204): remember
`previousState = clone(state)`, compute
`expectedState = deepMerge(state, update)`, install it in the cache and
notify listeners, then send the update to the host. `fails` tells
whether that request rejects; `interim` is the cache content installed
by an external `changed` push that arrived while the request was in
flight (`none` when no such push arrived, in which case the cache still
holds `expectedState`). On failure the cache is rolled back to
`previousState` (with a notification) exactly when
`JSON.stringify(state) === JSON.stringify(expectedState)` still holds at
that moment, and the error is re-thrown either way. Notifications made
by the external push's own handler are not events of this call and are
not listed. -/
def optimisticSet (s u : JVal) (fails : Bool) (interim : Option JVal) : ClientOutcome :=
  let previousState := clone s
  let expectedState := deepMerge s u
  let pre : List CEvent := [.notify expectedState, .send u]
  let stateAtResponse := interim.getD expectedState
  if fails then
    if jsonStr stateAtResponse = jsonStr expectedState then
      ⟨previousState, pre ++ [.notify previousState], true⟩
    else ⟨stateAtResponse, pre, true⟩
  else ⟨stateAtResponse, pre, false⟩

/-- An observable host-side event of the concurrent-write model: a
commit (the atomic merge/validate/state-replacement block of
`applyState`) or a broadcast, each tagged with the index of the `set`
call (0 = first-called) that performed it. A broadcast carries the
shared state read at broadcast time, as `StoreHost.broadcast` sends
`this.state`. -/
inductive HEvent where
  | commit (writer : Nat) (newState : JVal)
  | broadcast (writer : Nat) (payload : JVal)
deriving Repr

/-- A pending continuation of an in-flight `StoreHost.set` call with no
persistence middleware and no validator: `phase = 0` is the code between
`await this.initPromise` and `await Promise.all(...)` (merge, the
stringify short-circuit, the state replacement), `phase = 1` is the code
after the persistence await (the broadcast). -/
structure WTask where
  writer : Nat
  update : JVal
  phase : Nat
deriving Repr

/-- The JavaScript microtask queue executing concurrent `StoreHost.set`
calls (no middleware, no validator): tasks run one synchronous block at
a time; a block that ends in an `await` re-enqueues its continuation at
the back of the queue, matching the event-loop's FIFO microtask order.
`fuel` bounds the number of steps (each task contributes at most two
blocks, so any fuel of at least twice the queue length is exact). -/
def runWrites (fuel : Nat) (st : JVal) (queue : List WTask) (acc : List HEvent) :
    JVal × List HEvent :=
  match fuel, queue with
  | 0, _ => (st, acc.reverse)
  | _ + 1, [] => (st, acc.reverse)
  | fuel + 1, t :: rest =>
    match t.phase with
    | 0 =>
      let cand := deepMerge st t.update
      if jsonStr st = jsonStr cand then runWrites fuel st rest acc
      else
        runWrites fuel cand (rest ++ [⟨t.writer, t.update, 1⟩])
          (HEvent.commit t.writer cand :: acc)
    | _ => runWrites fuel st rest (HEvent.broadcast t.writer st :: acc)

/-- Two `StoreHost.set` calls issued in the same tick against shared
state `s` (first `uA`, then `uB`): both synchronously suspend on
`await this.initPromise`, so their first continuations sit in the
microtask queue in call order. -/
def concurrentPair (s uA uB : JVal) : JVal × List HEvent :=
  runWrites 8 s [⟨0, uA, 0⟩, ⟨1, uB, 0⟩] []

/-- The writer tag of a host event. -/
def writerOf : HEvent → Nat
  | .commit w _ => w
  | .broadcast w _ => w

/-- Whether an event is a broadcast. -/
def isBroadcast : HEvent → Bool
  | .broadcast _ _ => true
  | _ => false

/-! ## Helper lemmas about the association-list object operations -/

theorem objHasKey_objDelete_self (fs : List (String × JVal)) (k : String) :
    objHasKey (objDelete fs k) k = false := by
  induction fs with
  | nil => rfl
  | cons p rest ih =>
    obtain ⟨k1, v1⟩ := p
    by_cases h : k1 = k <;> simp [objDelete, objHasKey, h, ih]

theorem objHasKey_objDelete_ne (fs : List (String × JVal)) {k1 k : String} (h : k1 ≠ k) :
    objHasKey (objDelete fs k1) k = objHasKey fs k := by
  induction fs with
  | nil => rfl
  | cons p rest ih =>
    obtain ⟨k2, v2⟩ := p
    by_cases h2 : k2 = k1
    · subst h2; simp [objDelete, objHasKey, h, ih]
    · by_cases h3 : k2 = k <;> simp [objDelete, objHasKey, h2, h3, ih, Ne.symm h]

theorem objHasKey_objSet_ne (fs : List (String × JVal)) (v : JVal) {k1 k : String}
    (h : k1 ≠ k) : objHasKey (objSet fs k1 v) k = objHasKey fs k := by
  induction fs with
  | nil => simp [objSet, objHasKey, h]
  | cons p rest ih =>
    obtain ⟨k2, v2⟩ := p
    by_cases h2 : k2 = k1
    · subst h2; simp [objSet, objHasKey, h, ih]
    · by_cases h3 : k2 = k <;> simp [objSet, objHasKey, h2, h3, ih, Ne.symm h]

theorem objGet_objDelete_ne (fs : List (String × JVal)) {k1 k : String} (h : k1 ≠ k) :
    objGet (objDelete fs k1) k = objGet fs k := by
  induction fs with
  | nil => rfl
  | cons p rest ih =>
    obtain ⟨k2, v2⟩ := p
    by_cases h2 : k2 = k1
    · subst h2; simp [objDelete, objGet, h, ih]
    · by_cases h3 : k2 = k <;> simp [objDelete, objGet, h2, h3, ih, Ne.symm h]

theorem objGet_objSet_ne (fs : List (String × JVal)) (v : JVal) {k1 k : String}
    (h : k1 ≠ k) : objGet (objSet fs k1 v) k = objGet fs k := by
  induction fs with
  | nil => simp [objSet, objGet, h]
  | cons p rest ih =>
    obtain ⟨k2, v2⟩ := p
    by_cases h2 : k2 = k1
    · subst h2; simp [objSet, objGet, h, ih]
    · by_cases h3 : k2 = k <;> simp [objSet, objGet, h2, h3, ih, Ne.symm h]

/-- The merge loop leaves the presence of a key untouched when the
source mentions no entry for it. -/
theorem mergeInto_objHasKey_of_not_mem {k : String} :
    ∀ (sfs output : List (String × JVal)), k ∉ sfs.map Prod.fst →
      objHasKey (mergeInto output sfs) k = objHasKey output k
  | [], _, _ => rfl
  | (k1, sv) :: rest, output, h => by
    have hk : k1 ≠ k := by
      intro e; exact h (by simp [e])
    have hrest : k ∉ rest.map Prod.fst := by
      intro e; exact h (by simp [e])
    by_cases hr : isReservedKey k1
    · simpa [mergeInto, hr] using mergeInto_objHasKey_of_not_mem rest output hrest
    · by_cases hu : isUndef sv
      · simpa [mergeInto, hr, hu, objHasKey_objDelete_ne _ hk] using
          mergeInto_objHasKey_of_not_mem rest (objDelete output k1) hrest
      · simpa [mergeInto, hr, hu, objHasKey_objSet_ne _ _ hk] using
          mergeInto_objHasKey_of_not_mem rest
            (objSet output k1 (deepMerge (objGet output k1) sv)) hrest

/-- After the merge loop processes a source whose (unique) entry for a
non-reserved key `k` is the `undefined` deletion marker, no entry for
`k` remains. -/
theorem mergeInto_objHasKey_false {k : String} (hres : isReservedKey k = false) :
    ∀ (sfs output : List (String × JVal)), (k, JVal.undef) ∈ sfs →
      (sfs.map Prod.fst).Nodup →
      objHasKey (mergeInto output sfs) k = false
  | [], _, hmem, _ => absurd hmem (List.not_mem_nil _)
  | (k1, sv) :: rest, output, hmem, hnd => by
    simp only [List.map_cons, List.nodup_cons] at hnd
    obtain ⟨hnd1, hndrest⟩ := hnd
    rcases List.mem_cons.mp hmem with hhead | htail
    · rw [Prod.mk.injEq] at hhead
      obtain ⟨hk, hv⟩ := hhead
      subst hk
      have hknotin : k ∉ rest.map Prod.fst := hnd1
      have : isUndef sv = true := by rw [← hv]; rfl
      rw [show mergeInto output ((k, sv) :: rest)
            = mergeInto (objDelete output k) rest by simp [mergeInto, hres, this]]
      rw [mergeInto_objHasKey_of_not_mem rest _ hknotin]
      exact objHasKey_objDelete_self output k
    · have hk1 : k1 ≠ k := by
        intro e; subst e
        exact hnd1 (by simpa using List.mem_map_of_mem Prod.fst htail)
      by_cases hr : isReservedKey k1
      · simpa [mergeInto, hr] using
          mergeInto_objHasKey_false hres rest output htail hndrest
      · by_cases hu : isUndef sv
        · simpa [mergeInto, hr, hu] using
            mergeInto_objHasKey_false hres rest (objDelete output k1) htail hndrest
        · simpa [mergeInto, hr, hu] using
            mergeInto_objHasKey_false hres rest
              (objSet output k1 (deepMerge (objGet output k1) sv)) htail hndrest

/-- The merge loop never reads or writes a reserved key: its value and
presence in the output are those of the target. -/
theorem mergeInto_reserved {k : String} (hres : isReservedKey k = true) :
    ∀ (sfs output : List (String × JVal)),
      objGet (mergeInto output sfs) k = objGet output k ∧
      objHasKey (mergeInto output sfs) k = objHasKey output k
  | [], _ => ⟨rfl, rfl⟩
  | (k1, sv) :: rest, output => by
    by_cases hr : isReservedKey k1
    · simpa [mergeInto, hr] using mergeInto_reserved hres rest output
    · have hk : k1 ≠ k := by
        intro e; rw [e] at hr; exact hr hres
      by_cases hu : isUndef sv
      · have := mergeInto_reserved hres rest (objDelete output k1)
        simpa [mergeInto, hr, hu, objGet_objDelete_ne _ hk,
          objHasKey_objDelete_ne _ hk] using this
      · have := mergeInto_reserved hres rest
          (objSet output k1 (deepMerge (objGet output k1) sv))
        simpa [mergeInto, hr, hu, objGet_objSet_ne _ _ hk,
          objHasKey_objSet_ne _ _ hk] using this

/-- `JSON.stringify` yields no string exactly for `undefined`. -/
theorem jsonStr_eq_none_iff (v : JVal) : jsonStr v = none ↔ v = JVal.undef := by
  cases v <;> simp [jsonStr]

/-- Merging `undefined` deletes at every level: the top-level marker
wipes the whole value. -/
theorem deepMerge_undef_right (t : JVal) : deepMerge t JVal.undef = JVal.undef := by
  cases t <;> rfl

/-- Hydration over middleware results that all return (none of them
throw) folds the truthy results into the state in registration order. -/
theorem hydrateLoop_map_ok :
    ∀ (results : List JVal) (st : JVal),
      hydrateLoop st (results.map Except.ok)
        = Except.ok (results.foldl (fun s r => if truthy r then deepMerge s r else s) st)
  | [], _ => rfl
  | r :: rest, st => by
    simp only [List.map_cons, hydrateLoop, List.foldl_cons]
    exact hydrateLoop_map_ok rest _

/-! ## Claim theorems -/

/-- C5 (counterexample): the deletion law does not hold for every key of
a plain-mapping source. For the reserved key `__proto__` (an own key a
JS object can acquire, e.g. from `JSON.parse`), `deepMerge` skips the
entry before the `undefined` check, so the target's own `__proto__`
entry survives even though the source marks it absent. -/
theorem deletion_claim_fails_on_reserved_key :
    deepMerge (.obj [("__proto__", JVal.num 1)]) (.obj [("__proto__", JVal.undef)])
      = .obj [("__proto__", JVal.num 1)] ∧
    objHasKey (objFields (deepMerge (.obj [("__proto__", JVal.num 1)])
        (.obj [("__proto__", JVal.undef)]))) "__proto__" = true := by
  exact ⟨rfl, rfl⟩

/-- C5 (amended): for every plain-mapping target and plain-mapping
source, a **non-reserved** key whose source entry is the explicit
`undefined` marker is removed from the merge result entirely; in
particular merging `("b", undefined)` into `[("a",1),("b",2)]` yields
`[("a",1)]`. -/
theorem deepMerge_deletes_unreserved_undef_key :
    (∀ (tfs sfs : List (String × JVal)) (k : String),
        isReservedKey k = false → (k, JVal.undef) ∈ sfs →
        (sfs.map Prod.fst).Nodup →
        objHasKey (objFields (deepMerge (.obj tfs) (.obj sfs))) k = false) ∧
    deepMerge (.obj [("a", JVal.num 1), ("b", JVal.num 2)]) (.obj [("b", JVal.undef)])
      = .obj [("a", JVal.num 1)] := by
  constructor
  · intro tfs sfs k hres hmem hnd
    have hobj : deepMerge (.obj tfs) (.obj sfs) = .obj (mergeInto tfs sfs) := rfl
    rw [hobj]
    exact mergeInto_objHasKey_false hres sfs tfs hmem hnd
  · rfl

/-- C5 (witness): the amended deletion law applied at a concrete input. -/
theorem deepMerge_deletes_unreserved_undef_key_witness :
    objHasKey (objFields (deepMerge (.obj [("x", JVal.num 1)])
      (.obj [("x", JVal.undef)]))) "x" = false :=
  deepMerge_deletes_unreserved_undef_key.1 [("x", JVal.num 1)] [("x", JVal.undef)] "x"
    (by decide) (by simp) (by simp)

/-- C6: whenever the source is not the absent marker and either side is
not a plain keyed mapping, `deepMerge` performs no structural merge and
returns a clone of the source; in particular arrays are replaced
wholesale, never merged element-wise. -/
theorem deepMerge_replaces_when_not_both_plain :
    (∀ (t s : JVal), s ≠ JVal.undef →
        (isPlainObject t = false ∨ isPlainObject s = false) →
        deepMerge t s = clone s) ∧
    deepMerge (.obj [("a", .arr [.num 1, .num 2])]) (.obj [("a", .arr [.num 3])])
      = .obj [("a", .arr [.num 3])] := by
  constructor
  · intro t s hs hnp
    cases s <;> cases t <;> simp_all [deepMerge, clone, isPlainObject]
  · rfl

/-- C6 (witness): the replacement law applied at a concrete input (an
array source replaces an object target wholesale). -/
theorem deepMerge_replaces_when_not_both_plain_witness :
    deepMerge (.obj [("a", JVal.num 1)]) (.arr [JVal.num 3])
      = clone (.arr [JVal.num 3]) :=
  deepMerge_replaces_when_not_both_plain.1 (.obj [("a", JVal.num 1)]) (.arr [JVal.num 3])
    (by simp) (Or.inr rfl)

/-- C7: for every plain-mapping target and source, the reserved keys
`__proto__`, `constructor` and `prototype` of the source are silently
ignored by `deepMerge`: the result carries exactly the entry (and
presence) the target had for them; in particular merging a polluted
`__proto__` payload into an empty object yields an empty object. -/
theorem deepMerge_ignores_reserved_keys :
    (∀ (tfs sfs : List (String × JVal)) (k : String),
        isReservedKey k = true →
        objGet (objFields (deepMerge (.obj tfs) (.obj sfs))) k = objGet tfs k ∧
        objHasKey (objFields (deepMerge (.obj tfs) (.obj sfs))) k = objHasKey tfs k) ∧
    deepMerge (.obj []) (.obj [("__proto__", .obj [("polluted", .bool true)])])
      = .obj [] := by
  constructor
  · intro tfs sfs k hres
    have hobj : deepMerge (.obj tfs) (.obj sfs) = .obj (mergeInto tfs sfs) := rfl
    rw [hobj]
    exact mergeInto_reserved hres sfs tfs
  · rfl

/-- C7 (witness): the reserved-key law applied at a concrete input. -/
theorem deepMerge_ignores_reserved_keys_witness :
    objGet (objFields (deepMerge (.obj [("constructor", JVal.num 7)])
        (.obj [("constructor", JVal.num 9)]))) "constructor" = JVal.num 7 :=
  (deepMerge_ignores_reserved_keys.1 [("constructor", JVal.num 7)]
    [("constructor", JVal.num 9)] "constructor" (by decide)).1

/-- C2: when the configured validator throws on the merged candidate,
the host's `set` re-raises that error, the state is unchanged, no
persistence middleware is invoked and nothing is broadcast. -/
theorem hostSet_validation_failure_aborts (cfg : HostConfig) (m : Nat)
    (s u : JVal) (v : JVal → Except String JVal) (e : String)
    (hv : cfg.validate = some v) (herr : v (deepMerge s u) = .error e) :
    hostSet cfg m s u = ⟨s, [], [], some e⟩ := by
  simp [hostSet, applyState, runValidate, hv, herr]

/-- C2 (witness): a validator that always rejects aborts a concrete
write with the state intact. -/
theorem hostSet_validation_failure_aborts_witness :
    hostSet ⟨some fun _ => .error "invalid"⟩ 1 (.obj [("a", JVal.num 1)])
      (.obj [("b", JVal.num 2)]) = ⟨.obj [("a", JVal.num 1)], [], [], some "invalid"⟩ :=
  hostSet_validation_failure_aborts ⟨some fun _ => .error "invalid"⟩ 1
    (.obj [("a", JVal.num 1)]) (.obj [("b", JVal.num 2)]) (fun _ => .error "invalid")
    "invalid" rfl rfl

/-- C3 (counterexample): the idempotent short-circuit is **not** decided
by structural equality of the two values. Merging `("a", [null])` into
the state `("a", [undefined])` yields a structurally different state,
yet `JSON.stringify` renders both as the same string, so the write is
skipped: no commit, no persistence, no broadcast. -/
theorem shortCircuit_not_structural_counterexample :
    deepMerge (.obj [("a", .arr [JVal.undef])]) (.obj [("a", .arr [JVal.null])])
      = .obj [("a", .arr [JVal.null])] ∧
    (JVal.obj [("a", .arr [JVal.null])]) ≠ .obj [("a", .arr [JVal.undef])] ∧
    hostSet ⟨none⟩ 1 (.obj [("a", .arr [JVal.undef])]) (.obj [("a", .arr [JVal.null])])
      = ⟨.obj [("a", .arr [JVal.undef])], [], [], none⟩ := by
  refine ⟨rfl, by simp, rfl⟩

/-- C3 (amended): if the validated candidate is structurally equal to
the current state, the write skips persistence and broadcast; but the
comparison the code performs is `JSON.stringify` string equality, which
is coarser than structural equality: the write is skipped exactly when
the serializations agree. -/
theorem applyState_serialization_shortCircuit :
    (∀ (cfg : HostConfig) (m : Nat) (s u c : JVal),
        runValidate cfg (deepMerge s u) = .ok c → c = s →
        hostSet cfg m s u = ⟨s, [], [], none⟩) ∧
    (∀ (cfg : HostConfig) (m : Nat) (s u c : JVal),
        runValidate cfg (deepMerge s u) = .ok c →
        (hostSet cfg m s u = ⟨s, [], [], none⟩ ↔ jsonStr s = jsonStr c)) := by
  have key : ∀ (cfg : HostConfig) (m : Nat) (s u c : JVal),
      runValidate cfg (deepMerge s u) = .ok c →
      (hostSet cfg m s u = ⟨s, [], [], none⟩ ↔ jsonStr s = jsonStr c) := by
    intro cfg m s u c hok
    have happ : hostSet cfg m s u =
        (if jsonStr s = jsonStr c then ⟨s, [], [], none⟩
         else ⟨c, List.replicate m c, [c], none⟩ : WriteOutcome) := by
      unfold hostSet applyState
      rw [hok]
    rw [happ]
    by_cases h : jsonStr s = jsonStr c
    · simp [h]
    · rw [if_neg h]
      constructor
      · intro hcontra
        have hb : ([c] : List JVal) = [] := congrArg WriteOutcome.broadcasts hcontra
        simp at hb
      · intro hc; exact absurd hc h
  refine ⟨fun cfg m s u c hok hcs => ?_, key⟩
  exact (key cfg m s u c hok).mpr (by rw [hcs])

/-- C3 (witness): the amended short-circuit applied at a concrete input
(an update that merges to the current state causes no persistence and no
broadcast). -/
theorem applyState_serialization_shortCircuit_witness :
    hostSet ⟨none⟩ 1 (.obj [("a", JVal.num 1)]) (.obj [])
      = ⟨.obj [("a", JVal.num 1)], [], [], none⟩ :=
  applyState_serialization_shortCircuit.1 ⟨none⟩ 1 (.obj [("a", JVal.num 1)])
    (.obj []) (.obj [("a", JVal.num 1)]) rfl rfl

/-- C9 (counterexample): a host whose state is already the absent value
(reachable by a previous `set(undefined)`) does **not** persist or
broadcast a further `set(undefined)`: the candidate serializes like the
state, so the idempotent short-circuit skips the write. -/
theorem hostSet_undef_on_absent_state_skips :
    hostSet ⟨none⟩ 1 JVal.undef JVal.undef
      = ⟨JVal.undef, [], [], none⟩ ∧
    deepMerge JVal.undef JVal.undef = JVal.undef := ⟨rfl, rfl⟩

/-- C9 (amended): on a host without a validator whose state is not
already the absent value, `set(undefined)` produces the candidate
`deepMerge(s, undefined) = undefined` and commits it: the whole state
becomes `undefined`, every persistence middleware receives it, and it is
broadcast — the public `set` interface does not reject the top-level
deletion marker. -/
theorem hostSet_undef_commits_when_state_present (m : Nat) (s : JVal)
    (hs : s ≠ JVal.undef) :
    hostSet ⟨none⟩ m s JVal.undef
      = ⟨JVal.undef, List.replicate m JVal.undef, [JVal.undef], none⟩ := by
  have hjs : jsonStr s ≠ jsonStr JVal.undef := by
    intro h
    exact hs ((jsonStr_eq_none_iff s).mp (by simpa [jsonStr] using h))
  simp [hostSet, deepMerge_undef_right, applyState, runValidate, hjs]

/-- C9 (witness): committing the top-level deletion marker at a concrete
non-absent state. -/
theorem hostSet_undef_commits_when_state_present_witness :
    hostSet ⟨none⟩ 1 (.obj [("a", JVal.num 1)]) JVal.undef
      = ⟨JVal.undef, [JVal.undef], [JVal.undef], none⟩ :=
  hostSet_undef_commits_when_state_present 1 (.obj [("a", JVal.num 1)]) (by simp)

/-- C8: any error thrown while gathering initial state makes hydration
fall back to a clone of the configured defaults. `initState` is a total
function — the `catch` in `StoreHost.init` swallows the error, so the
init promise always resolves, the store reaches readiness, and queued
writes proceed against the fallback state. -/
theorem initState_hydration_error_falls_back (cfg : HostConfig) (defaults : JVal)
    (hyd : List (Except String JVal)) (e : String)
    (herr : hydrateLoop (clone defaults) hyd = .error e) :
    initState cfg defaults hyd = clone defaults := by
  simp [initState, herr]

/-- C8 (witness): a middleware that throws during hydration leaves the
store on its defaults. -/
theorem initState_hydration_error_falls_back_witness :
    initState ⟨none⟩ (.obj [("count", JVal.num 0)]) [.error "disk failure"]
      = clone (.obj [("count", JVal.num 0)]) :=
  initState_hydration_error_falls_back ⟨none⟩ (.obj [("count", JVal.num 0)])
    [.error "disk failure"] "disk failure" rfl

/-- C10 (counterexample): hydration does not merge every **non-null**
`onHydrate` result — it merges every **truthy** one (`if (loaded)`).
With an identity validator configured, defaults `("a",1)` and a single
middleware returning `false` (non-null), the code keeps the defaults,
whereas the claimed formula `validate(deepMerge(defaults, false))`
evaluates to `false`. -/
theorem hydration_nonnull_claim_counterexample :
    initState ⟨some fun x => Except.ok x⟩ (.obj [("a", JVal.num 1)])
      [.ok (.bool false)] = .obj [("a", JVal.num 1)] ∧
    runValidate ⟨some fun x => Except.ok x⟩
        (deepMerge (.obj [("a", JVal.num 1)]) (.bool false))
      = .ok (.bool false) ∧
    (JVal.obj [("a", JVal.num 1)]) ≠ JVal.bool false := by
  refine ⟨rfl, rfl, by simp⟩

/-- C10 (amended): with a validator configured, hydration applies it to
the fully merged hydrated state before the store becomes ready: when no
middleware throws, the state is the validator's output on the fold of
the **truthy** `onHydrate` results (merged in registration order over
the defaults), and a validator exception is treated as a hydration
failure — the state reverts to a clone of the defaults. -/
theorem initState_validates_truthy_merged :
    (∀ (cfg : HostConfig) (v : JVal → Except String JVal) (defaults : JVal)
        (results : List JVal) (out : JVal),
        cfg.validate = some v →
        v (results.foldl (fun st r => if truthy r then deepMerge st r else st)
            (clone defaults)) = .ok out →
        initState cfg defaults (results.map Except.ok) = out) ∧
    (∀ (cfg : HostConfig) (v : JVal → Except String JVal) (defaults : JVal)
        (results : List JVal) (e : String),
        cfg.validate = some v →
        v (results.foldl (fun st r => if truthy r then deepMerge st r else st)
            (clone defaults)) = .error e →
        initState cfg defaults (results.map Except.ok) = clone defaults) := by
  constructor
  · intro cfg v defaults results out hv hok
    simp [initState, hydrateLoop_map_ok, runValidate, hv, hok]
  · intro cfg v defaults results e hv herr
    simp [initState, hydrateLoop_map_ok, runValidate, hv, herr]

/-- C10 (witness): the amended hydration law applied at a concrete
input with an identity validator and one truthy middleware result. -/
theorem initState_validates_truthy_merged_witness :
    initState ⟨some fun x => Except.ok x⟩ (.obj [("a", JVal.num 1)])
      [Except.ok (.obj [("b", JVal.num 2)])]
      = .obj [("a", JVal.num 1), ("b", JVal.num 2)] :=
  initState_validates_truthy_merged.1 ⟨some fun x => Except.ok x⟩
    (fun x => Except.ok x) (.obj [("a", JVal.num 1)]) [.obj [("b", JVal.num 2)]]
    (.obj [("a", JVal.num 1), ("b", JVal.num 2)]) rfl rfl

/-- C1: an optimistic `set` on cached state `s` first installs
`expected = deepMerge(s, update)` and notifies listeners, and only then
contacts the host; if the host request fails, the cache reverts to `s`
exactly when the cached state at failure time still serializes like
`expected` (in particular when no external update arrived in the
interim), is left at the newer value otherwise, and the error is
re-raised to the caller in both cases. -/
theorem optimisticSet_rollback_law (s u : JVal) (interim : Option JVal) :
    (optimisticSet s u true interim).events.take 2
        = [CEvent.notify (deepMerge s u), CEvent.send u] ∧
    (optimisticSet s u true interim).raised = true ∧
    (jsonStr (interim.getD (deepMerge s u)) = jsonStr (deepMerge s u) →
      (optimisticSet s u true interim).state = s) ∧
    (jsonStr (interim.getD (deepMerge s u)) ≠ jsonStr (deepMerge s u) →
      (optimisticSet s u true interim).state = interim.getD (deepMerge s u)) := by
  by_cases h : jsonStr (interim.getD (deepMerge s u)) = jsonStr (deepMerge s u) <;>
    simp [optimisticSet, clone, h]

/-- C1 (witness): a failing optimistic write with no interim external
update rolls the cache back to its pre-update value and re-raises. -/
theorem optimisticSet_rollback_law_witness :
    (optimisticSet (.obj [("count", JVal.num 0)]) (.obj [("count", JVal.num 1)])
        true none).state = .obj [("count", JVal.num 0)] ∧
    (optimisticSet (.obj [("count", JVal.num 0)]) (.obj [("count", JVal.num 1)])
        true none).raised = true :=
  ⟨(optimisticSet_rollback_law (.obj [("count", JVal.num 0)])
      (.obj [("count", JVal.num 1)]) none).2.2.1 rfl,
   (optimisticSet_rollback_law (.obj [("count", JVal.num 0)])
      (.obj [("count", JVal.num 1)]) none).2.1⟩

/-- C4 (counterexample): the merge/validate/persist/broadcast steps of
two same-tick writes **do** interleave — `StoreHost.set` has no write
lock, so the second write's commit executes between the first write's
commit and its broadcast: the event owners come out `[0, 1, 0, 1]`, not
one write's steps wholly before the other's. -/
theorem concurrent_writes_interleave_counterexample :
    (concurrentPair (.obj []) (.obj [("a", JVal.num 1)]) (.obj [("b", JVal.num 2)])).2
      = [HEvent.commit 0 (.obj [("a", JVal.num 1)]),
         HEvent.commit 1 (.obj [("a", JVal.num 1), ("b", JVal.num 2)]),
         HEvent.broadcast 0 (.obj [("a", JVal.num 1), ("b", JVal.num 2)]),
         HEvent.broadcast 1 (.obj [("a", JVal.num 1), ("b", JVal.num 2)])] ∧
    ((concurrentPair (.obj []) (.obj [("a", JVal.num 1)])
        (.obj [("b", JVal.num 2)])).2.map writerOf ≠ [0, 0, 1, 1] ∧
     (concurrentPair (.obj []) (.obj [("a", JVal.num 1)])
        (.obj [("b", JVal.num 2)])).2.map writerOf ≠ [1, 1, 0, 0]) := by
  refine ⟨rfl, by decide, by decide⟩

/-- C4 (amended): the commit block (merge, validation, state
replacement) of each write is atomic and the two commits apply in call
order, so two same-tick writes of `("a",1)` and `("b",2)` against the
empty state reach the combined final state regardless of arrival order,
and (with no persistence middleware) exactly two broadcasts are issued
in call order; but a write arriving mid-commit does not queue behind the
in-flight one: the later write's commit lands between the earlier
write's commit and its broadcast, and broadcasts carry the state current
at broadcast time. -/
theorem concurrent_writes_commit_in_call_order :
    objGet (objFields (concurrentPair (.obj []) (.obj [("a", JVal.num 1)])
        (.obj [("b", JVal.num 2)])).1) "a" = JVal.num 1 ∧
    objGet (objFields (concurrentPair (.obj []) (.obj [("a", JVal.num 1)])
        (.obj [("b", JVal.num 2)])).1) "b" = JVal.num 2 ∧
    objGet (objFields (concurrentPair (.obj []) (.obj [("b", JVal.num 2)])
        (.obj [("a", JVal.num 1)])).1) "a" = JVal.num 1 ∧
    objGet (objFields (concurrentPair (.obj []) (.obj [("b", JVal.num 2)])
        (.obj [("a", JVal.num 1)])).1) "b" = JVal.num 2 ∧
    ((concurrentPair (.obj []) (.obj [("a", JVal.num 1)])
        (.obj [("b", JVal.num 2)])).2.filter (fun ev => isBroadcast ev)).map writerOf
      = [0, 1] ∧
    ((concurrentPair (.obj []) (.obj [("b", JVal.num 2)])
        (.obj [("a", JVal.num 1)])).2.filter (fun ev => isBroadcast ev)).map writerOf
      = [0, 1] ∧
    (concurrentPair (.obj []) (.obj [("a", JVal.num 1)])
        (.obj [("b", JVal.num 2)])).2.map writerOf = [0, 1, 0, 1] := by
  refine ⟨rfl, rfl, rfl, rfl, rfl, rfl, rfl⟩

end SyncStore
